import Mathlib

set_option maxRecDepth 100000

/-!
Verification of the NDEF record utilities of the web-nfc-demo repository.

The definitions below are a shallow embedding of the TypeScript sources:

* `src/utils/nfcUtils.ts` — `isNDEFRecordTypeExternal`, `estimateNdefMessageSize`,
  `decodeRecord`, `arrayBufferToBase64`, `arrayBufferToHexString`,
  `hexStringToArrayBuffer`;
* the add-record form component — `prepareRecordPayload` and the validation
  part of `handleSubmit`.

Byte buffers (`ArrayBuffer`/`Uint8Array` contents) are embedded as `List Nat`
with every element below 256; JavaScript strings are embedded as `String`,
and `TextEncoder.encode(s).length` as `String.utf8ByteSize`.  Optional /
possibly-empty JavaScript object fields are `Option String`, with JavaScript
truthiness made explicit (an empty string is falsy, `undefined` is falsy).
-/

mutual
/-- Payload of an `NDEFRecordInit`: absent, a string, a raw byte buffer, or a
nested record list (`NDEFMessageInit`, used by smart-poster records). -/
inductive RData where
  | noData : RData
  | strData : String → RData
  | bufData : List Nat → RData
  | msgData : List NDEFRec → RData

/-- An `NDEFRecordInit` object: record type, media type, id, encoding,
language and payload, in that order. -/
inductive NDEFRec where
  | mk : String → Option String → Option String → Option String → Option String → RData → NDEFRec
end

/-- Field accessor: `record.recordType`. -/
def NDEFRec.recordType : NDEFRec → String
  | .mk t _ _ _ _ _ => t

/-- Field accessor: `record.mediaType`. -/
def NDEFRec.mediaType : NDEFRec → Option String
  | .mk _ m _ _ _ _ => m

/-- Field accessor: `record.id`. -/
def NDEFRec.id : NDEFRec → Option String
  | .mk _ _ i _ _ _ => i

/-- Field accessor: `record.encoding`. -/
def NDEFRec.encoding : NDEFRec → Option String
  | .mk _ _ _ e _ _ => e

/-- Field accessor: `record.lang`. -/
def NDEFRec.lang : NDEFRec → Option String
  | .mk _ _ _ _ l _ => l

/-- Field accessor: `record.data`. -/
def NDEFRec.data : NDEFRec → RData
  | .mk _ _ _ _ _ d => d

/-- The list of standard (non-external) NDEF type names from
`isNDEFRecordTypeExternal` in `nfcUtils.ts`. -/
def standardTypes : List String :=
  ["empty", "text", "url", "smart-poster", "absolute-url", "mime", "unknown"]

/-- Embedding of `isNDEFRecordTypeExternal(recordType)`: a falsy (empty)
string gives `false`; otherwise the string is external when it is not a
standard type name and contains a colon. -/
def isNDEFRecordTypeExternal (recordType : String) : Bool :=
  if recordType = "" then false
  else !(standardTypes.contains recordType) && recordType.toList.contains ':'

/-- JavaScript truthiness of an optional string field: `undefined` and the
empty string are falsy. -/
def truthyStr : Option String → Bool
  | none => false
  | some s => s != ""

/-- JavaScript truthiness of `record.data`: `undefined` is falsy, an empty
string is falsy, and any object (buffer or nested message) is truthy. -/
def RData.truthy : RData → Bool
  | .noData => false
  | .strData s => s != ""
  | .bufData _ => true
  | .msgData _ => true

/-- Embedding of the `typeStringForCalc` if-chain of `estimateNdefMessageSize`
(lines 24–43 of `nfcUtils.ts`). -/
def typeStringForCalc (r : NDEFRec) : String :=
  if r.recordType = "empty" || r.recordType = "unknown" then ""
  else if r.recordType = "absolute-url" then
    match r.data with
    | .strData s => s
    | _ => ""
  else if r.recordType = "mime" && truthyStr r.mediaType then r.mediaType.getD ""
  else if isNDEFRecordTypeExternal r.recordType then r.recordType
  else if r.recordType = "text" then "T"
  else if r.recordType = "url" then "U"
  else if r.recordType = "smart-poster" then "Sp"
  else r.recordType

/-- Embedding of the id contribution of `estimateNdefMessageSize` (lines
84–87): one ID-length byte plus the UTF-8 bytes of the id, when `record.id`
is truthy. -/
def idFieldSize (r : NDEFRec) : Nat :=
  match r.id with
  | some i => if i = "" then 0 else 1 + i.utf8ByteSize
  | none => 0

/-- Test for `typeof record.data === "string"` inside the text branch of the
estimator: the UTF-8 byte length of a string payload, 0 otherwise. -/
def textDataLen : RData → Nat
  | .strData s => s.utf8ByteSize
  | _ => 0

/-- The `record.lang || "en"` default of the estimator's text branch. -/
def langOrDefault : Option String → String
  | some l => if l = "" then "en" else l
  | none => "en"

/-- Payload byte length for the catch-all data branch of the estimator
(lines 70–76 of `nfcUtils.ts`): UTF-8 length of a string, byte length of a
buffer, 0 for anything else. -/
def dataByteLen : RData → Nat
  | .strData s => s.utf8ByteSize
  | .bufData b => b.length
  | _ => 0

/-- Test for `typeof record.data === "object" && "records" in record.data`. -/
def RData.isMsg : RData → Bool
  | .msgData _ => true
  | _ => false

mutual
/-- Embedding of `estimateNdefMessageSize(records, isRecursiveCall = false)`:
the `forEach` accumulation is expressed as recursion over the record list. -/
def estimateNdefMessageSize (records : List NDEFRec) (isRecursiveCall : Bool) : Nat :=
  match records with
  | [] => 0
  | r :: rest => recordEstimate r isRecursiveCall + estimateNdefMessageSize rest isRecursiveCall
termination_by structural records

/-- Size contributed by one record in `estimateNdefMessageSize`: the body of
the `forEach` callback (lines 21–91 of `nfcUtils.ts`). -/
def recordEstimate (r : NDEFRec) (isRecursiveCall : Bool) : Nat :=
  match r with
  | .mk rt mt id enc lang data =>
    if rt = "empty" then 1
    else
      1 + 1 + (typeStringForCalc (.mk rt mt id enc lang data)).utf8ByteSize
        + (if payloadFor rt lang data < 256 && !isRecursiveCall then 1 else 4)
        + idFieldSize (.mk rt mt id enc lang data) + payloadFor rt lang data
termination_by structural r

/-- The `payloadByteLength` computation of the estimator (lines 55–76 of
`nfcUtils.ts`), with the three record fields it reads passed explicitly. -/
def payloadFor (rt : String) (lang : Option String) (data : RData) : Nat :=
  if rt = "absolute-url" then 0
  else if rt = "text" then 1 + (langOrDefault lang).utf8ByteSize + textDataLen data
  else if rt = "smart-poster" && data.isMsg then
    match data with
    | .msgData recs => estimateNdefMessageSize recs true
    | _ => 0
  else if data.truthy then dataByteLen data
  else 0
termination_by structural data
end

/-- The `payloadByteLength` local variable of `estimateNdefMessageSize`, as
a function of the record. -/
def payloadByteLength (r : NDEFRec) : Nat := payloadFor r.recordType r.lang r.data

/-- Read-side record as seen by `decodeRecord`: only the two fields the
function touches.  `data` holds the bytes behind `record.data.buffer`
(`none` when `record.data` is absent), `encoding` is the declared text
encoding, when any. -/
structure NDEFRecordR where
  data : Option (List Nat)
  encoding : Option String

/-- Embedding of `decodeRecord(record)` (lines 97–104 of `nfcUtils.ts`).
The platform `TextDecoder` is abstracted as the parameter `textDecode`,
applied to the chosen encoding label and the payload bytes; the embedding is
a total function, matching the never-throws behaviour on absent payloads. -/
def decodeRecord (textDecode : String → List Nat → String) (record : NDEFRecordR) : String :=
  match record.data with
  | none => "No data in record"
  | some bytes => textDecode (record.encoding.getD "utf-8") bytes

/-- The base64 alphabet string of `nfcUtils.ts`, as a character list. -/
def base64Chars : List Char :=
  "ABCDEFGHIJKLMNOPQRSTUVWXYZabcdefghijklmnopqrstuvwxyz0123456789+/".toList

/-- JavaScript string indexing `base64Chars[v]`; in the source `v` is always
below 64. -/
def b64char (v : Nat) : Char := base64Chars.getD v 'A'

/-- Embedding of the character-producing loop of `arrayBufferToBase64`
(lines 114–131 of `nfcUtils.ts`): groups of three bytes, then a tail of two
or one byte with `=` padding. -/
def encodeBase64Chars : List Nat → List Char
  | b0 :: b1 :: b2 :: rest =>
      b64char (b0 >>> 2) ::
      b64char (((b0 &&& 0x03) <<< 4) ||| (b1 >>> 4)) ::
      b64char (((b1 &&& 0x0F) <<< 2) ||| (b2 >>> 6)) ::
      b64char (b2 &&& 0x3F) :: encodeBase64Chars rest
  | [b0, b1] =>
      [b64char (b0 >>> 2), b64char (((b0 &&& 0x03) <<< 4) ||| (b1 >>> 4)),
       b64char ((b1 &&& 0x0F) <<< 2), '=']
  | [b0] =>
      [b64char (b0 >>> 2), b64char ((b0 &&& 0x03) <<< 4), '=', '=']
  | [] => []

/-- Embedding of `arrayBufferToBase64(buffer, mediaType)`: the encoded
characters wrapped as a data URL. -/
def arrayBufferToBase64 (buffer : List Nat) (mediaType : String) : String :=
  "data:" ++ mediaType ++ ";base64," ++ String.mk (encodeBase64Chars buffer)

/-- Value of a character in the standard base64 alphabet (decode side). -/
def base64CharVal (c : Char) : Option Nat := base64Chars.indexOf? c

/-- Standard RFC 4648 base64 decoding, written from the base64 specification
(not from the repository, which has no decoder): four-character groups are
turned into three bytes, with `=` padding ending the input after one or two
bytes.  This is the spec side of the round-trip claim for
`arrayBufferToBase64`. -/
def decodeBase64 : List Char → Option (List Nat)
  | [] => some []
  | c0 :: c1 :: c2 :: c3 :: rest =>
    if c2 = '=' ∧ c3 = '=' ∧ rest = [] then
      match base64CharVal c0, base64CharVal c1 with
      | some v0, some v1 => some [v0 * 4 + v1 / 16]
      | _, _ => none
    else if c3 = '=' ∧ rest = [] then
      match base64CharVal c0, base64CharVal c1, base64CharVal c2 with
      | some v0, some v1, some v2 => some [v0 * 4 + v1 / 16, (v1 % 16) * 16 + v2 / 4]
      | _, _, _ => none
    else
      match base64CharVal c0, base64CharVal c1, base64CharVal c2, base64CharVal c3,
          decodeBase64 rest with
      | some v0, some v1, some v2, some v3, some bytes =>
          some ((v0 * 4 + v1 / 16) :: ((v1 % 16) * 16 + v2 / 4) :: ((v2 % 4) * 64 + v3) :: bytes)
      | _, _, _, _, _ => none
  | _ => none

/-- Lowercase hexadecimal digit table used by `Number.prototype.toString(16)`
for values below 16. -/
def hexDigitChar (n : Nat) : Char := "0123456789abcdef".toList.getD n '0'

/-- Embedding of `byteArray[i].toString(16).padStart(2, "0")` for a
`Uint8Array` element (always below 256): two lowercase hex characters. -/
def byteToHexChars (b : Nat) : List Char :=
  if b < 16 then ['0', hexDigitChar b]
  else [hexDigitChar (b / 16), hexDigitChar (b % 16)]

/-- Character accumulation of the `arrayBufferToHexString` loop. -/
def hexCharsOfBuffer : List Nat → List Char
  | [] => []
  | b :: rest => byteToHexChars b ++ hexCharsOfBuffer rest

/-- Embedding of `arrayBufferToHexString(buffer)` (lines 136–143 of
`nfcUtils.ts`). -/
def arrayBufferToHexString (buffer : List Nat) : String :=
  String.mk (hexCharsOfBuffer buffer)

/-- Test `hexString.startsWith("0x")` on the character list of the string. -/
def startsWith0x (cs : List Char) : Bool :=
  match cs with
  | c1 :: c2 :: _ => c1 = '0' && c2 = 'x'
  | _ => false

/-- Value of one hex digit, case-insensitive, as accepted by
`parseInt(-, 16)`. -/
def hexCharVal (c : Char) : Option Nat :=
  if '0' ≤ c ∧ c ≤ '9' then some (c.toNat - '0'.toNat)
  else if 'a' ≤ c ∧ c ≤ 'f' then some (c.toNat - 'a'.toNat + 10)
  else if 'A' ≤ c ∧ c ≤ 'F' then some (c.toNat - 'A'.toNat + 10)
  else none

/-- Embedding of `parseInt(byteString, 16)` on a two-character string,
followed by the `Uint8Array` element coercion: `parseInt` reads the longest
hex-digit head (`NaN` when there is none), and storing `NaN` into a
`Uint8Array` yields 0. -/
def parseIntHex2 (c1 c2 : Char) : Nat :=
  match hexCharVal c1 with
  | none => 0
  | some v1 =>
    match hexCharVal c2 with
    | none => v1
    | some v2 => 16 * v1 + v2

/-- Embedding of `parseInt` on a one-character slice (the `substring`
clamps at the end of the string; unreachable after padding). -/
def parseIntHex1 (c1 : Char) : Nat :=
  match hexCharVal c1 with
  | none => 0
  | some v => v

/-- The byte-assembling loop of `hexStringToArrayBuffer`: one byte per two
characters. -/
def parseHexPairs : List Char → List Nat
  | [] => []
  | [c] => [parseIntHex1 c]
  | c1 :: c2 :: rest => parseIntHex2 c1 c2 :: parseHexPairs rest

/-- Embedding of `hexStringToArrayBuffer(hexString)` (lines 146–158 of
`nfcUtils.ts`): strip a `0x` head, append a `0` character when the digit
count is odd, then parse character pairs. -/
def hexStringToArrayBuffer (hexString : String) : List Nat :=
  let cs := hexString.toList
  let hex := if startsWith0x cs then cs.drop 2 else cs
  let hex := if hex.length % 2 ≠ 0 then hex ++ ['0'] else hex
  parseHexPairs hex

/-- Character class `[a-zA-Z0-9.-]` of the external-type validation regex
(the trailing dash is literal). -/
def extDomainChar (c : Char) : Bool :=
  c.isAlpha || c.isDigit || c = '.' || c = '-'

/-- Character class `[a-zA-Z0-9.-_]` of the external-type validation regex:
inside the class, `.-_` is the character range from `.` (0x2E) to `_`
(0x5F). -/
def extNameChar (c : Char) : Bool :=
  c.isAlpha || c.isDigit || ('.' ≤ c && c ≤ '_')

/-- Embedding of the test of `/^[a-zA-Z0-9.-]+:[a-zA-Z0-9.-_]+$/` from
`handleSubmit`: since the first class cannot match a colon, the string must
split at its first colon into a non-empty domain part and a non-empty name
part drawn from the two classes. -/
def matchesExternalTypeShape (s : String) : Bool :=
  let cs := s.toList
  let p := cs.takeWhile (fun c => c ≠ ':')
  match cs.dropWhile (fun c => c ≠ ':') with
  | ':' :: q => !p.isEmpty && p.all extDomainChar && !q.isEmpty && q.all extNameChar
  | _ => false

/-- Embedding of `prepareRecordPayload` from the add-record form component:
builds the `NDEFRecordInitCustom` object for the selected record type.
Field-assignment order of the source is rendered as the final field values;
JavaScript truthiness of the string inputs is explicit. -/
def prepareRecordPayload (currentRecordType currentExternalTypeString currentMediaType
    currentId currentEncoding currentLang currentTextData : String)
    (currentFileDataBuffer : Option (List Nat)) (currentSmartPosterUrl : String)
    (isMimeTextBasedLogic : Bool) (hexToBufferUtilFunc : String → List Nat) : NDEFRec :=
  let rt := if currentRecordType = "external" then currentExternalTypeString else currentRecordType
  let idOpt := if currentId = "" then none else some currentId
  if currentRecordType = "text" then
    NDEFRec.mk rt none idOpt
      (some (if currentEncoding = "" then "utf-8" else currentEncoding))
      (some (if currentLang = "" then "en" else currentLang))
      (.strData currentTextData)
  else if currentRecordType = "url" || currentRecordType = "absolute-url" then
    NDEFRec.mk rt none idOpt none none (.strData currentTextData)
  else if currentRecordType = "mime" then
    match currentFileDataBuffer with
    | some buf => NDEFRec.mk rt (some currentMediaType) idOpt none none (.bufData buf)
    | none =>
      NDEFRec.mk rt (some currentMediaType) idOpt
        (if isMimeTextBasedLogic && currentEncoding != "" then some currentEncoding else none)
        none (.strData currentTextData)
  else if currentRecordType = "smart-poster" then
    let nested : List NDEFRec :=
      NDEFRec.mk "url" none none none none (.strData currentSmartPosterUrl) ::
        (if currentTextData = "" then []
         else [NDEFRec.mk "text" none none
            (some (if currentEncoding = "" then "utf-8" else currentEncoding))
            (some (if currentLang = "" then "en" else currentLang))
            (.strData currentTextData)])
    NDEFRec.mk rt none idOpt none none (.msgData nested)
  else if currentRecordType = "external" then
    match currentFileDataBuffer with
    | some buf => NDEFRec.mk rt none idOpt none none (.bufData buf)
    | none =>
      NDEFRec.mk rt none idOpt
        (if currentEncoding != "" then some currentEncoding else none)
        none (.strData currentTextData)
  else if currentRecordType = "unknown" then
    match currentFileDataBuffer with
    | some buf => NDEFRec.mk rt none idOpt none none (.bufData buf)
    | none =>
      if startsWith0x currentTextData.toList then
        NDEFRec.mk rt none idOpt none none (.bufData (hexToBufferUtilFunc currentTextData))
      else
        NDEFRec.mk rt none idOpt
          (if currentEncoding != "" then some currentEncoding else none)
          none (.strData currentTextData)
  else
    NDEFRec.mk rt none idOpt none none .noData

/-- The validation chain at the head of `handleSubmit`: the four `alert`
guards, in source order; `some message` models an alert plus early return,
`none` means validation passed. -/
def handleSubmitValidation (recordType externalTypeString smartPosterUrl
    mediaType : String) : Option String :=
  if recordType = "mime" ∧ mediaType = "" then
    some "MIME Type is required for mime record type."
  else if recordType = "external" ∧ externalTypeString = "" then
    some "External Record Type Domain:Name is required."
  else if recordType = "external" ∧ ¬(matchesExternalTypeShape externalTypeString = true) then
    some "External Record Type must be in domain:type format."
  else if recordType = "smart-poster" ∧ smartPosterUrl = "" then
    some "Smart Poster URL is required."
  else none

/-- Embedding of `handleSubmit`: run the validation guards; on failure no
record is emitted (`none`), otherwise the record built by
`prepareRecordPayload` is emitted. -/
def handleSubmit (recordType externalTypeString mediaType id encoding lang
    textData : String) (fileArrayBuffer : Option (List Nat)) (smartPosterUrl : String)
    (isTextBasedMime : Bool) : Option NDEFRec :=
  match handleSubmitValidation recordType externalTypeString smartPosterUrl mediaType with
  | some _ => none
  | none => some (prepareRecordPayload recordType externalTypeString mediaType id encoding
      lang textData fileArrayBuffer smartPosterUrl isTextBasedMime hexStringToArrayBuffer)

/-- Modelled from the spec: the form requires that the smart-poster URL
"must parse as a valid absolute URL".  The repository contains no URL
parser (the template delegates to the browser input element), so only the
necessary condition shared by every absolute URL is modelled: the string
contains the scheme separator colon. -/
def hasUrlSchemeSeparator (s : String) : Bool := s.toList.contains ':'

/-- Unfolding lemma: the estimator of an empty record list is 0. -/
theorem estimateNdefMessageSize_nil (flag : Bool) :
    estimateNdefMessageSize [] flag = 0 := rfl

/-- Unfolding lemma: the estimator adds the head record's size to the size
of the rest. -/
theorem estimateNdefMessageSize_cons (r : NDEFRec) (rest : List NDEFRec) (flag : Bool) :
    estimateNdefMessageSize (r :: rest) flag =
      recordEstimate r flag + estimateNdefMessageSize rest flag := rfl

/-- The inlined per-record computation of `recordEstimate` agrees with the
standalone `payloadByteLength`, `typeStringForCalc` and `idFieldSize`
helpers. -/
theorem recordEstimate_eq (r : NDEFRec) (flag : Bool) :
    recordEstimate r flag =
      if r.recordType = "empty" then 1
      else 1 + 1 + (typeStringForCalc r).utf8ByteSize
        + (if payloadByteLength r < 256 && !flag then 1 else 4)
        + idFieldSize r + payloadByteLength r := by
  cases r with
  | mk rt mt id enc lang data =>
    simp only [recordEstimate, payloadByteLength, NDEFRec.recordType, NDEFRec.lang, NDEFRec.data]

/-- C10: `isNDEFRecordTypeExternal` returns true exactly for the non-empty
strings outside the seven standard type names that contain a colon anywhere
(including `:x`, `a:` and `a:b:c`), and false for the empty string and for
any string without a colon. -/
theorem isNDEFRecordTypeExternal_characterization :
    (∀ s : String, isNDEFRecordTypeExternal s = true ↔
      (s ≠ "" ∧ standardTypes.contains s = false ∧ s.toList.contains ':' = true)) ∧
    isNDEFRecordTypeExternal ":x" = true ∧
    isNDEFRecordTypeExternal "a:" = true ∧
    isNDEFRecordTypeExternal "a:b:c" = true ∧
    isNDEFRecordTypeExternal "" = false ∧
    isNDEFRecordTypeExternal "example.com:mytype" = true ∧
    isNDEFRecordTypeExternal "text" = false := by
  refine ⟨?_, by decide, by decide, by decide, by decide, by decide, by decide⟩
  intro s
  by_cases hs : s = ""
  · simp [isNDEFRecordTypeExternal, hs]
  · simp [isNDEFRecordTypeExternal, hs]

/-- C2 counterexample: `hexStringToArrayBuffer("0xF")` yields the single
byte `0xF0`, not `0x0F` as the claim states: the odd digit count is padded
with a trailing zero nibble, so `F` becomes `F0`. -/
theorem hexStringToArrayBuffer_0xF_cex :
    hexStringToArrayBuffer "0xF" = [0xF0] ∧ hexStringToArrayBuffer "0xF" ≠ [0x0F] := by
  exact ⟨rfl, by decide⟩

/-- C2 amended: `hexStringToArrayBuffer` pads an odd hex-digit count with a
trailing 0 nibble before decoding, so `0xF` yields the single byte `0xF0`,
`0xFF0` yields `[0xFF, 0x00]`, and `0xABCDE` yields `[0xAB, 0xCD, 0xE0]`. -/
theorem hexStringToArrayBuffer_padding_examples :
    hexStringToArrayBuffer "0xF" = [0xF0] ∧
    hexStringToArrayBuffer "0xFF0" = [0xFF, 0x00] ∧
    hexStringToArrayBuffer "0xABCDE" = [0xAB, 0xCD, 0xE0] := by
  exact ⟨rfl, rfl, rfl⟩

/-- C4: a record whose `recordType` is `"empty"` contributes exactly one
byte, whatever the other fields (media type, id, encoding, language,
payload) hold. -/
theorem estimate_empty_record (mt id enc lang : Option String) (d : RData) :
    estimateNdefMessageSize [NDEFRec.mk "empty" mt id enc lang d] false = 1 := by
  simp [estimateNdefMessageSize_cons, estimateNdefMessageSize_nil, recordEstimate_eq,
    NDEFRec.recordType]

/-- Witness for C4 at a record carrying every other field, an id included. -/
theorem estimate_empty_record_witness :
    estimateNdefMessageSize [NDEFRec.mk "empty" (some "text/plain") (some "my-id")
      (some "utf-8") (some "en") (.strData "ignored")] false = 1 :=
  estimate_empty_record (some "text/plain") (some "my-id") (some "utf-8") (some "en")
    (.strData "ignored")

/-- C7: the estimate of a record list equals the sum of the estimates of its
singleton record lists (top-level call, `isRecursiveCall = false`). -/
theorem estimate_additive (records : List NDEFRec) :
    estimateNdefMessageSize records false =
      (records.map (fun r => estimateNdefMessageSize [r] false)).sum := by
  induction records with
  | nil => rfl
  | cons r rest ih =>
    simp [estimateNdefMessageSize_cons, estimateNdefMessageSize_nil, ih]

/-- Witness for C7 on a two-record message. -/
theorem estimate_additive_witness :
    estimateNdefMessageSize [NDEFRec.mk "text" none none none (some "en") (.strData "hello"),
        NDEFRec.mk "url" none none none none (.strData "https://e.com")] false =
      ([NDEFRec.mk "text" none none none (some "en") (.strData "hello"),
        NDEFRec.mk "url" none none none none (.strData "https://e.com")].map
          (fun r => estimateNdefMessageSize [r] false)).sum :=
  estimate_additive [NDEFRec.mk "text" none none none (some "en") (.strData "hello"),
    NDEFRec.mk "url" none none none none (.strData "https://e.com")]

/-- C1 counterexample: inside a smart poster, a nested `url` sub-record with
a 1-byte payload (far below 256) is sized with the 4-byte payload-length
field: alone at top level it is 5 bytes, nested it counts 8, and the whole
one-sub-record smart poster is 13 bytes, not the 10 the claimed top-level
rule (1-byte length field) would give. -/
theorem nested_short_record_cex :
    payloadByteLength (NDEFRec.mk "url" none none none none (.strData "x")) = 1 ∧
    recordEstimate (NDEFRec.mk "url" none none none none (.strData "x")) false = 5 ∧
    recordEstimate (NDEFRec.mk "url" none none none none (.strData "x")) true = 8 ∧
    estimateNdefMessageSize [NDEFRec.mk "smart-poster" none none none none
      (.msgData [NDEFRec.mk "url" none none none none (.strData "x")])] false = 13 ∧
    estimateNdefMessageSize [NDEFRec.mk "smart-poster" none none none none
      (.msgData [NDEFRec.mk "url" none none none none (.strData "x")])] false ≠
      1 + 1 + 2 + 1 +
        recordEstimate (NDEFRec.mk "url" none none none none (.strData "x")) false := by
  exact ⟨rfl, rfl, rfl, rfl, by decide⟩

/-- C1 amended: a smart-poster record with a nested record list sizes its
payload by the recursive call with `isRecursiveCall = true`, and under that
flag every non-empty nested sub-record gets the long 4-byte payload-length
field regardless of its payload size (only top-level records get the 1-byte
field when the payload is under 256 bytes). -/
theorem nested_records_always_long_length_field :
    (∀ (mt id enc lang : Option String) (recs : List NDEFRec),
      payloadByteLength (NDEFRec.mk "smart-poster" mt id enc lang (.msgData recs)) =
        estimateNdefMessageSize recs true) ∧
    (∀ recs : List NDEFRec,
      estimateNdefMessageSize recs true =
        (recs.map (fun r => if r.recordType = "empty" then 1
          else 1 + 1 + (typeStringForCalc r).utf8ByteSize + 4 + idFieldSize r
            + payloadByteLength r)).sum) := by
  constructor
  · intro mt id enc lang recs
    rfl
  · intro recs
    induction recs with
    | nil => rfl
    | cons r rest ih =>
      simp only [estimateNdefMessageSize_cons, recordEstimate_eq, Bool.not_true,
        Bool.and_false, Bool.false_eq_true, if_false, ih, List.map_cons, List.sum_cons]

/-- C8 counterexample: the string `"not a url"` is non-empty and cannot
parse as an absolute URL (it lacks even a scheme separator), yet
`handleSubmit` raises no validation error and a smart-poster record is
constructed and emitted. -/
theorem smart_poster_url_validation_cex :
    hasUrlSchemeSeparator "not a url" = false ∧
    ("not a url" : String) ≠ "" ∧
    handleSubmit "smart-poster" "" "" "" "utf-8" "en" "" none "not a url" false =
      some (NDEFRec.mk "smart-poster" none none none none
        (.msgData [NDEFRec.mk "url" none none none none (.strData "not a url")])) := by
  exact ⟨by decide, by decide, rfl⟩

/-- C8 amended: for smart-poster inputs, `handleSubmit` validates only that
the URL string is non-empty; with an empty URL a validation error stops
submission and no record is produced, and with any non-empty URL string —
parseable as an absolute URL or not — the record built by
`prepareRecordPayload` is produced. -/
theorem handleSubmit_smart_poster_validation (ext mt idv enc lang text : String)
    (file : Option (List Nat)) (url : String) (mtb : Bool) :
    handleSubmit "smart-poster" ext mt idv enc lang text file url mtb =
      if url = "" then none
      else some (prepareRecordPayload "smart-poster" ext mt idv enc lang text file url mtb
        hexStringToArrayBuffer) := by
  by_cases hu : url = "" <;>
    simp [handleSubmit, handleSubmitValidation, hu]

/-- C9: `decodeRecord` returns the "no data" sentinel, never throwing (the
embedding is total), whenever the payload is absent — whatever encoding is
declared — and decodes with the UTF-8 label by default when a payload is
present and no encoding is declared.  `textDecode` abstracts the platform
`TextDecoder`. -/
theorem decodeRecord_sentinel_and_default (textDecode : String → List Nat → String)
    (enc : Option String) (bytes : List Nat) :
    decodeRecord textDecode ⟨none, enc⟩ = "No data in record" ∧
    decodeRecord textDecode ⟨some bytes, none⟩ = textDecode "utf-8" bytes :=
  ⟨rfl, rfl⟩

/-- C3: a single text record with no id is sized as five header bytes plus
the language-code bytes plus the UTF-8 text bytes when the payload
(status byte + language + text) is under 256 bytes; otherwise the 1-byte
payload-length-field term becomes 4. -/
theorem estimate_single_text_record (mt enc : Option String) (l s : String) (hl : l ≠ "") :
    (1 + l.utf8ByteSize + s.utf8ByteSize < 256 →
      estimateNdefMessageSize [NDEFRec.mk "text" mt none enc (some l) (.strData s)] false
        = 1 + 1 + 1 + 1 + 1 + l.utf8ByteSize + s.utf8ByteSize) ∧
    (¬ 1 + l.utf8ByteSize + s.utf8ByteSize < 256 →
      estimateNdefMessageSize [NDEFRec.mk "text" mt none enc (some l) (.strData s)] false
        = 1 + 1 + 1 + 4 + 1 + l.utf8ByteSize + s.utf8ByteSize) := by
  have hext : isNDEFRecordTypeExternal "text" = false := by decide
  have hts : typeStringForCalc (NDEFRec.mk "text" mt none enc (some l) (.strData s)) = "T" := by
    simp [typeStringForCalc, NDEFRec.recordType, NDEFRec.data, NDEFRec.mediaType, hext]
  have hpl : payloadByteLength (NDEFRec.mk "text" mt none enc (some l) (.strData s))
      = 1 + l.utf8ByteSize + s.utf8ByteSize := by
    simp [payloadByteLength, NDEFRec.recordType, NDEFRec.lang, NDEFRec.data, payloadFor,
      langOrDefault, textDataLen, hl]
  have hid : idFieldSize (NDEFRec.mk "text" mt none enc (some l) (.strData s)) = 0 := by
    simp [idFieldSize, NDEFRec.id]
  have hT : ("T" : String).utf8ByteSize = 1 := by decide
  constructor <;> intro h <;>
    simp [estimateNdefMessageSize_cons, estimateNdefMessageSize_nil, recordEstimate_eq,
      NDEFRec.recordType, hts, hpl, hid, hT, h] <;> omega

/-- Witness for C3 at an English two-character text. -/
theorem estimate_single_text_record_witness :
    estimateNdefMessageSize [NDEFRec.mk "text" none none none (some "en") (.strData "hi")] false
      = 1 + 1 + 1 + 1 + 1 + ("en" : String).utf8ByteSize + ("hi" : String).utf8ByteSize :=
  (estimate_single_text_record none none "en" "hi" (by decide)).1 (by decide)

/-- Decide-checked table fact: hex digits below 16 round-trip through
`parseIntHex2`. -/
theorem parseIntHex2_hexDigitChar :
    ∀ b : Fin 256,
      parseIntHex2 (hexDigitChar (b.val / 16)) (hexDigitChar (b.val % 16)) = b.val := by
  decide

/-- Decide-checked table fact: no hex digit is the character `x`. -/
theorem hexDigitChar_ne_x : ∀ i : Fin 16, hexDigitChar i.val ≠ 'x' := by
  decide

/-- Decide-checked table fact: hex digits are lowercase hex characters. -/
theorem hexDigitChar_mem : ∀ i : Fin 16, hexDigitChar i.val ∈ "0123456789abcdef".toList := by
  decide

/-- For a byte, the two-character form of `byteToHexChars` is high nibble
then low nibble. -/
theorem byteToHexChars_eq (b : Nat) :
    byteToHexChars b = [hexDigitChar (b / 16), hexDigitChar (b % 16)] := by
  unfold byteToHexChars
  by_cases h16 : b < 16
  · simp [h16, Nat.div_eq_of_lt h16, Nat.mod_eq_of_lt h16]
    rfl
  · simp [h16]

/-- Parsing the hex characters of a byte buffer recovers the buffer. -/
theorem parseHexPairs_hexCharsOfBuffer (bs : List Nat) (h : ∀ b ∈ bs, b < 256) :
    parseHexPairs (hexCharsOfBuffer bs) = bs := by
  induction bs with
  | nil => rfl
  | cons b rest ih =>
    have hb : b < 256 := h b (List.mem_cons_self _ _)
    show parseHexPairs (byteToHexChars b ++ hexCharsOfBuffer rest) = b :: rest
    rw [byteToHexChars_eq b]
    show parseIntHex2 (hexDigitChar (b / 16)) (hexDigitChar (b % 16))
        :: parseHexPairs (hexCharsOfBuffer rest) = b :: rest
    rw [parseIntHex2_hexDigitChar ⟨b, hb⟩, ih (fun x hx => h x (List.mem_cons_of_mem _ hx))]

/-- The hex characters of a buffer come in two per byte. -/
theorem hexCharsOfBuffer_length (bs : List Nat) (h : ∀ b ∈ bs, b < 256) :
    (hexCharsOfBuffer bs).length = 2 * bs.length := by
  induction bs with
  | nil => rfl
  | cons b rest ih =>
    have hb : b < 256 := h b (List.mem_cons_self _ _)
    show (byteToHexChars b ++ hexCharsOfBuffer rest).length = 2 * (b :: rest).length
    rw [List.length_append, byteToHexChars_eq b,
      ih (fun x hx => h x (List.mem_cons_of_mem _ hx))]
    simp [List.length_cons]
    omega

/-- The hex characters of a buffer never start with `0x` (the second
character is a hex digit, never `x`). -/
theorem startsWith0x_hexCharsOfBuffer (bs : List Nat) (h : ∀ b ∈ bs, b < 256) :
    startsWith0x (hexCharsOfBuffer bs) = false := by
  cases bs with
  | nil => rfl
  | cons b rest =>
    have hb : b < 256 := h b (List.mem_cons_self _ _)
    show startsWith0x (byteToHexChars b ++ hexCharsOfBuffer rest) = false
    rw [byteToHexChars_eq b]
    have hx : hexDigitChar (b % 16) ≠ 'x' := hexDigitChar_ne_x ⟨b % 16, Nat.mod_lt _ (by omega)⟩
    simp [startsWith0x, hx]

/-- All hex characters of a buffer are lowercase hex digits. -/
theorem hexCharsOfBuffer_lowercase (bs : List Nat) (h : ∀ b ∈ bs, b < 256) :
    ∀ c ∈ hexCharsOfBuffer bs, c ∈ "0123456789abcdef".toList := by
  induction bs with
  | nil => intro c hc; simp [hexCharsOfBuffer] at hc
  | cons b rest ih =>
    intro c hc
    have hb : b < 256 := h b (List.mem_cons_self _ _)
    have hc2 : c ∈ byteToHexChars b ++ hexCharsOfBuffer rest := hc
    rw [byteToHexChars_eq b] at hc2
    rcases List.mem_append.mp hc2 with hcl | hcr
    · rcases List.mem_cons.mp hcl with rfl | hcl2
      · exact hexDigitChar_mem ⟨b / 16, by omega⟩
      · rcases List.mem_cons.mp hcl2 with rfl | hnil
        · exact hexDigitChar_mem ⟨b % 16, by omega⟩
        · simp at hnil
    · exact ih (fun x hx => h x (List.mem_cons_of_mem _ hx)) c hcr

/-- C5: the hex conversion round-trips exactly on arbitrary byte buffers
(zero length included), and `arrayBufferToHexString` emits two lowercase
hex characters per byte. -/
theorem hex_string_roundtrip (bs : List Nat) (h : ∀ b ∈ bs, b < 256) :
    hexStringToArrayBuffer (arrayBufferToHexString bs) = bs ∧
    (arrayBufferToHexString bs).length = 2 * bs.length ∧
    ∀ c ∈ (arrayBufferToHexString bs).toList, c ∈ "0123456789abcdef".toList := by
  have hlist : (arrayBufferToHexString bs).data = hexCharsOfBuffer bs := rfl
  refine ⟨?_, ?_, ?_⟩
  · have h2 : startsWith0x (hexCharsOfBuffer bs) = false := startsWith0x_hexCharsOfBuffer bs h
    have h3 : (hexCharsOfBuffer bs).length % 2 = 0 := by
      rw [hexCharsOfBuffer_length bs h]; omega
    simp [hexStringToArrayBuffer, hlist, h2, h3]
    exact parseHexPairs_hexCharsOfBuffer bs h
  · show (hexCharsOfBuffer bs).length = 2 * bs.length
    exact hexCharsOfBuffer_length bs h
  · show ∀ c ∈ hexCharsOfBuffer bs, c ∈ "0123456789abcdef".toList
    exact hexCharsOfBuffer_lowercase bs h

/-- Witness for C5 on the three-byte buffer `[0, 255, 16]`. -/
theorem hex_string_roundtrip_witness :
    (∀ b ∈ [0, 255, 16], b < 256) ∧
    hexStringToArrayBuffer (arrayBufferToHexString [0, 255, 16]) = [0, 255, 16] :=
  ⟨by decide, (hex_string_roundtrip [0, 255, 16] (by decide)).1⟩

/-- Decide-checked: the base64 alphabet inverts its own indexing on the 64
valid six-bit values. -/
theorem base64CharVal_b64char : ∀ v : Fin 64, base64CharVal (b64char v.val) = some v.val := by
  decide

/-- Decide-checked: no base64 alphabet character is the padding `=`. -/
theorem b64char_ne_eq : ∀ v : Fin 64, b64char v.val ≠ '=' := by
  decide

/-- Decide-checked: masking a byte with 3 is reduction mod 4. -/
theorem byte_and3 : ∀ b : Fin 256, b.val &&& 3 = b.val % 4 := by decide

/-- Decide-checked: masking a byte with 15 is reduction mod 16. -/
theorem byte_and15 : ∀ b : Fin 256, b.val &&& 15 = b.val % 16 := by decide

/-- Decide-checked: masking a byte with 63 is reduction mod 64. -/
theorem byte_and63 : ∀ b : Fin 256, b.val &&& 63 = b.val % 64 := by decide

/-- Decide-checked: shifting a byte right by 2 is division by 4. -/
theorem byte_shr2 : ∀ b : Fin 256, b.val >>> 2 = b.val / 4 := by decide

/-- Decide-checked: shifting a byte right by 4 is division by 16. -/
theorem byte_shr4 : ∀ b : Fin 256, b.val >>> 4 = b.val / 16 := by decide

/-- Decide-checked: shifting a byte right by 6 is division by 64. -/
theorem byte_shr6 : ∀ b : Fin 256, b.val >>> 6 = b.val / 64 := by decide

/-- Decide-checked: a 2-bit value shifted left by 4 or-ed with a 4-bit value
is plain positional arithmetic. -/
theorem shl4_or : ∀ x : Fin 4, ∀ y : Fin 16, ((x.val <<< 4) ||| y.val) = x.val * 16 + y.val := by
  decide

/-- Decide-checked: a 4-bit value shifted left by 2 or-ed with a 2-bit value
is plain positional arithmetic. -/
theorem shl2_or : ∀ x : Fin 16, ∀ y : Fin 4, ((x.val <<< 2) ||| y.val) = x.val * 4 + y.val := by
  decide

/-- Decide-checked: shifting a 2-bit value left by 4 multiplies by 16. -/
theorem shl4_eq : ∀ x : Fin 4, (x.val <<< 4) = x.val * 16 := by decide

/-- Decide-checked: shifting a 4-bit value left by 2 multiplies by 4. -/
theorem shl2_eq : ∀ x : Fin 16, (x.val <<< 2) = x.val * 4 := by decide

/-- Standard base64 decoding inverts the encoding loop of
`arrayBufferToBase64` on every byte buffer. -/
theorem decodeBase64_encodeBase64Chars (bs : List Nat) (h : ∀ b ∈ bs, b < 256) :
    decodeBase64 (encodeBase64Chars bs) = some bs := by
  have main : ∀ (n : Nat) (l : List Nat), l.length ≤ n → (∀ b ∈ l, b < 256) →
      decodeBase64 (encodeBase64Chars l) = some l := by
    intro n
    induction n with
    | zero =>
      intro l hlen _
      rcases l with _ | ⟨b0, tail⟩
      · rfl
      · simp at hlen
    | succ n ih =>
      intro l hlen hl
      rcases l with _ | ⟨b0, _ | ⟨b1, _ | ⟨b2, rest⟩⟩⟩
      · rfl
      · have h0 : b0 < 256 := hl b0 (by simp)
        show decodeBase64 [b64char (b0 >>> 2), b64char ((b0 &&& 3) <<< 4), '=', '=']
          = some [b0]
        rw [byte_shr2 ⟨b0, h0⟩, byte_and3 ⟨b0, h0⟩, shl4_eq ⟨b0 % 4, by omega⟩]
        have hv0 : base64CharVal (b64char (b0 / 4)) = some (b0 / 4) :=
          base64CharVal_b64char ⟨b0 / 4, by omega⟩
        have hv1 : base64CharVal (b64char (b0 % 4 * 16)) = some (b0 % 4 * 16) :=
          base64CharVal_b64char ⟨b0 % 4 * 16, by omega⟩
        simp only [decodeBase64, hv0, hv1, and_self, and_true, if_true, List.cons.injEq,
          Option.some.injEq, and_true, if_pos]
        omega
      · have h0 : b0 < 256 := hl b0 (by simp)
        have h1 : b1 < 256 := hl b1 (by simp)
        show decodeBase64 [b64char (b0 >>> 2), b64char (((b0 &&& 3) <<< 4) ||| (b1 >>> 4)),
            b64char ((b1 &&& 15) <<< 2), '='] = some [b0, b1]
        rw [byte_shr2 ⟨b0, h0⟩, byte_and3 ⟨b0, h0⟩, byte_shr4 ⟨b1, h1⟩,
          byte_and15 ⟨b1, h1⟩, shl4_or ⟨b0 % 4, by omega⟩ ⟨b1 / 16, by omega⟩,
          shl2_eq ⟨b1 % 16, by omega⟩]
        have hv0 : base64CharVal (b64char (b0 / 4)) = some (b0 / 4) :=
          base64CharVal_b64char ⟨b0 / 4, by omega⟩
        have hv1 : base64CharVal (b64char (b0 % 4 * 16 + b1 / 16))
            = some (b0 % 4 * 16 + b1 / 16) :=
          base64CharVal_b64char ⟨b0 % 4 * 16 + b1 / 16, by omega⟩
        have hv2 : base64CharVal (b64char (b1 % 16 * 4)) = some (b1 % 16 * 4) :=
          base64CharVal_b64char ⟨b1 % 16 * 4, by omega⟩
        have hne2 : ¬ (b64char (b1 % 16 * 4) = '=') := b64char_ne_eq ⟨b1 % 16 * 4, by omega⟩
        simp only [decodeBase64, hv0, hv1, hv2, hne2, false_and, if_false, and_self,
          and_true, true_and, if_true, List.cons.injEq, Option.some.injEq]
        omega
      · have h0 : b0 < 256 := hl b0 (by simp)
        have h1 : b1 < 256 := hl b1 (by simp)
        have h2 : b2 < 256 := hl b2 (by simp)
        have hrest : ∀ b ∈ rest, b < 256 := fun x hx => hl x (by simp [hx])
        have hlen2 : rest.length ≤ n := by
          simp [List.length_cons] at hlen; omega
        have ihr := ih rest hlen2 hrest
        show decodeBase64 (b64char (b0 >>> 2) ::
            b64char (((b0 &&& 3) <<< 4) ||| (b1 >>> 4)) ::
            b64char (((b1 &&& 15) <<< 2) ||| (b2 >>> 6)) ::
            b64char (b2 &&& 63) :: encodeBase64Chars rest) = some (b0 :: b1 :: b2 :: rest)
        rw [byte_shr2 ⟨b0, h0⟩, byte_and3 ⟨b0, h0⟩, byte_shr4 ⟨b1, h1⟩,
          byte_and15 ⟨b1, h1⟩, byte_shr6 ⟨b2, h2⟩, byte_and63 ⟨b2, h2⟩,
          shl4_or ⟨b0 % 4, by omega⟩ ⟨b1 / 16, by omega⟩,
          shl2_or ⟨b1 % 16, by omega⟩ ⟨b2 / 64, by omega⟩]
        have hv0 : base64CharVal (b64char (b0 / 4)) = some (b0 / 4) :=
          base64CharVal_b64char ⟨b0 / 4, by omega⟩
        have hv1 : base64CharVal (b64char (b0 % 4 * 16 + b1 / 16))
            = some (b0 % 4 * 16 + b1 / 16) :=
          base64CharVal_b64char ⟨b0 % 4 * 16 + b1 / 16, by omega⟩
        have hv2 : base64CharVal (b64char (b1 % 16 * 4 + b2 / 64))
            = some (b1 % 16 * 4 + b2 / 64) :=
          base64CharVal_b64char ⟨b1 % 16 * 4 + b2 / 64, by omega⟩
        have hv3 : base64CharVal (b64char (b2 % 64)) = some (b2 % 64) :=
          base64CharVal_b64char ⟨b2 % 64, by omega⟩
        have hne2 : ¬ (b64char (b1 % 16 * 4 + b2 / 64) = '=') :=
          b64char_ne_eq ⟨b1 % 16 * 4 + b2 / 64, by omega⟩
        have hne3 : ¬ (b64char (b2 % 64) = '=') := b64char_ne_eq ⟨b2 % 64, by omega⟩
        simp only [decodeBase64, hv0, hv1, hv2, hv3, hne2, hne3, ihr, false_and, and_false,
          if_false, List.cons.injEq, Option.some.injEq]
        refine ⟨by omega, by omega, by omega, trivial⟩
  exact main bs.length bs le_rfl h

/-- C6: the base64 portion of `arrayBufferToBase64(b, m)` — the text after
the `data:<m>;base64,` head — is the standard base64 encoding of the
buffer, so standard base64 decoding recovers the buffer exactly, for every
buffer (zero length included) and every media type. -/
theorem base64_roundtrip (bs : List Nat) (h : ∀ b ∈ bs, b < 256) (m : String) :
    arrayBufferToBase64 bs m = "data:" ++ m ++ ";base64," ++ String.mk (encodeBase64Chars bs) ∧
    decodeBase64 (encodeBase64Chars bs) = some bs :=
  ⟨rfl, decodeBase64_encodeBase64Chars bs h⟩

/-- Witness for C6 on a five-byte buffer and the media type `image/png`. -/
theorem base64_roundtrip_witness :
    (∀ b ∈ [0, 1, 2, 3, 255], b < 256) ∧
    decodeBase64 (encodeBase64Chars [0, 1, 2, 3, 255]) = some [0, 1, 2, 3, 255] ∧
    arrayBufferToBase64 [0, 1, 2, 3, 255] "image/png" =
      "data:" ++ "image/png" ++ ";base64," ++ String.mk (encodeBase64Chars [0, 1, 2, 3, 255]) :=
  ⟨by decide, (base64_roundtrip [0, 1, 2, 3, 255] (by decide) "image/png").2,
    (base64_roundtrip [0, 1, 2, 3, 255] (by decide) "image/png").1⟩
